import Mathlib

/-!
# Verification of the froth-monitor frame/motion-tracking core

A shallow embedding, in Lean 4, of the core tracking pipeline of the
froth-monitor application:

* `VideoAnalysis` (src/froth_monitor/image_analysis.py) — the per-region
  motion estimator built on OpenCV optical flow;
* `ROI` and `FrameModel` (src/froth_monitor/fm_model.py) — per-region
  calibration and velocity aggregation, and the frame orchestrator;
* `CameraThread._capture_loop` (src/froth_monitor/camera_thread.py) — the
  background frame producer with drop-on-busy backpressure.

Modelling conventions:

* Python `float` arithmetic is abstracted as an arbitrary field `α`
  (instantiated at `ℚ` for executable evaluations and at `ℝ` where real
  trigonometry is needed).  Python float division by zero raises
  `ZeroDivisionError`; the embedding models the fallible constructions with
  `Except String`.
* Calls into external libraries (OpenCV flow computations, `math.cos`/`sin`)
  are parameters of the embedding: a `FlowOracle` bundles the OpenCV entry
  points used by `VideoAnalysis.analyze`, a `TrigModel` bundles
  `math.radians`/`math.cos`/`math.sin`.  At `ℝ` the trig model is
  instantiated with the genuine `Real.cos`/`Real.sin`.
* Wall-clock time is an input: every operation that reads the clock in the
  source takes the sampled timestamp as an argument.  Second-resolution
  timestamps (`time.strftime "%H:%M:%S"`) are modelled as `ℕ`, compared only
  for equality, exactly as the source compares the formatted strings.
* Frames are 2D pixel buffers, `List (List α)`; NumPy slice cropping is
  modelled with `drop`/`take`, which share NumPy's clamping behaviour for
  in-range nonnegative slice bounds.
-/

/-- A video frame: rows of pixels.  Pixel values are abstract (`α`); only
cropping and identity of frames matter for the verified properties. -/
def Frame (α : Type) : Type := List (List α)

instance (α : Type) [DecidableEq α] : DecidableEq (Frame α) := by
  unfold Frame; exact inferInstance

/-- Lucas-Kanade parameter dictionary (`lk_params` in the source).
`criteria` is `(TERM_CRITERIA_EPS | TERM_CRITERIA_COUNT, 10, 0.03)`;
the OpenCV flag value `EPS | COUNT = 3`. -/
structure LKParams (α : Type) where
  winSize : ℕ × ℕ
  maxLevel : ℕ
  criteria : ℕ × ℕ × α
  deriving DecidableEq

/-- Farneback parameter dictionary (`of_params` in the source). -/
structure OFParams (α : Type) where
  pyr_scale : α
  levels : ℕ
  winsize : ℕ
  iterations : ℕ
  poly_n : ℕ
  poly_sigma : α
  deriving DecidableEq

/-- Source `dict(winSize=(15,15), maxLevel=2, criteria=(EPS|COUNT, 10, 0.03))`. -/
def defaultLKParams (α : Type) [Field α] : LKParams α :=
  { winSize := (15, 15), maxLevel := 2, criteria := (3, 10, 3 / 100) }

/-- Source `dict(pyr_scale=0.5, levels=3, winsize=15, iterations=3, poly_n=7,
poly_sigma=1.5)`. -/
def defaultOFParams (α : Type) [Field α] : OFParams α :=
  { pyr_scale := 1 / 2, levels := 3, winsize := 15, iterations := 3,
    poly_n := 7, poly_sigma := 3 / 2 }

/-- The OpenCV entry points used by `VideoAnalysis.analyze`, abstracted as
oracle functions.  `gray` is `cv2.cvtColor(·, COLOR_BGR2GRAY)`;
`farneback` is the mean over the dense `calcOpticalFlowFarneback` field
(source lines 120-131); `goodFeatures` is `cv2.goodFeaturesToTrack`, which
returns `None` when no feature is found; `lkStep` abstracts source lines
144-170: pyramidal Lucas-Kanade tracking of a point set followed by status
filtering, returning the mean flow vector and the surviving point set
(`none` when no point tracked successfully, in which case the source also
reports zero flow — oracles must satisfy no law here because no verified
claim depends on the numeric flow values). -/
structure FlowOracle (α : Type) where
  gray : Frame α → Frame α
  farneback : Frame α → Frame α → α × α
  goodFeatures : Frame α → Option (List (α × α))
  lkStep : Frame α → Frame α → List (α × α) → (α × α) × Option (List (α × α))

/-- State of `VideoAnalysis` (image_analysis.py lines 77-108).
`prev_pts` is only assigned on the first `analyze` call in the source
(`getattr` default `None`); it is modelled as a field initialised to
`none`.  `previous_frame = none` encodes the Python attribute holding
`None`. -/
structure VideoAnalysis (α : Type) where
  previous_frame : Option (Frame α)
  current_velocity : α
  arrow_dir_x : α
  arrow_dir_y : α
  current_algorithm : String
  lk_params : LKParams α
  of_params : OFParams α
  prev_pts : Option (List (α × α))
  deriving DecidableEq

/-- Source `VideoAnalysis.__init__(arrow_dir_x, arrow_dir_y)`: note the default
`current_algorithm` is the string `"Farneback"` (capital F, line 93). -/
def VideoAnalysis.init (α : Type) [Field α] (ax ay : α) : VideoAnalysis α :=
  { previous_frame := none
    current_velocity := 0
    arrow_dir_x := ax
    arrow_dir_y := ay
    current_algorithm := "Farneback"
    lk_params := defaultLKParams α
    of_params := defaultOFParams α
    prev_pts := none }

/-- Source `VideoAnalysis.analyze(current_frame)` (image_analysis.py lines
110-179).  Returns the new estimator state and the displacement pair:
`none` models the sentinel `(None, None)` returned on the first call,
`some (ax, ay)` a numeric pair.  An unrecognised `current_algorithm`
raises `ValueError(f"Unknown algorithm: ...")`, modelled as `.error`;
the raise happens before any state mutation, so the erroring call leaves
the estimator unchanged. -/
def VideoAnalysis.analyze {α : Type} [Field α] (O : FlowOracle α)
    (s : VideoAnalysis α) (current_frame : Frame α) :
    Except String (VideoAnalysis α × Option (α × α)) :=
  match s.previous_frame with
  | none =>
      .ok ({ s with previous_frame := some current_frame, prev_pts := none }, none)
  | some prev =>
      let gray_current := O.gray current_frame
      let gray_previous := O.gray prev
      if s.current_algorithm = "farneback" then
        let flow := O.farneback gray_previous gray_current
        .ok ({ s with previous_frame := some current_frame }, some flow)
      else if s.current_algorithm = "lucas-kanade" then
        let pts := match s.prev_pts with
          | none => O.goodFeatures gray_previous
          | some p => some p
        match pts with
        | some p =>
            let r := O.lkStep gray_previous gray_current p
            .ok ({ s with previous_frame := some current_frame,
                          prev_pts := r.2 }, some r.1)
        | none =>
            .ok ({ s with previous_frame := some current_frame,
                          prev_pts := none }, some (0, 0))
      else
        .error ("Unknown algorithm: " ++ s.current_algorithm)

/-- One entry of `ROI.delta_history`: the Python list
`[timestamp, delta_pixels, calibrated_delta, None]` appended per processed
frame (fm_model.py lines 88-90); `velo` is the fourth slot, rewritten in
place by `calculate_velocity`. -/
structure DeltaEntry (α : Type) where
  ts : ℕ
  px : α × α
  calibrated : α
  velo : Option α
  deriving DecidableEq

/-- State of one `ROI` (fm_model.py lines 45-65).  `delta_pixels` holds the
last `analyze` result: the outer `Option` is the attribute's initial Python
`None`, the inner `Option (α × α)` the sentinel-or-numeric pair.
`calibrated_delta` is an attribute first assigned inside `process_frame`,
hence optional.  `cross_position` is presentation-only state, never touched
by the core. -/
structure ROI (α : Type) where
  coordinate : ℤ × ℤ × ℤ × ℤ
  analysis : VideoAnalysis α
  delta_pixels : Option (Option (α × α))
  cross_position : Option (α × α)
  delta_history : List (DeltaEntry α)
  arrow_dir : α
  px2mm : α
  mm2px : α
  degree : α
  timestamp : ℕ
  timestamp_buffer : ℕ
  current_velocity : α
  velo_only_history : List α
  average_velocity_past_30s : Option α
  calibrated_delta : Option α
  deriving DecidableEq

/-- The record built by `ROI.__init__(roi_coordinate, px2mm, degree)` when
the division `1 / px2mm` succeeds.  `now` is the creation-time
second-resolution timestamp (`time.strftime("%H:%M:%S")`, line 60), stored
in both `timestamp` and `timestamp_buffer`.
`average_velocity_past_30s` starts as `cast(float, None)`. -/
def ROI.init_state {α : Type} [Field α] (roi_coordinate : ℤ × ℤ × ℤ × ℤ)
    (px2mm degree : α) (now : ℕ) : ROI α :=
  { coordinate := roi_coordinate
    analysis := VideoAnalysis.init α 0 0
    delta_pixels := none
    cross_position := none
    delta_history := []
    arrow_dir := 0
    px2mm := px2mm
    mm2px := 1 / px2mm
    degree := degree
    timestamp := now
    timestamp_buffer := now
    current_velocity := 0
    velo_only_history := []
    average_velocity_past_30s := none
    calibrated_delta := none }

/-- Source `ROI.__init__` as run by Python: computing `1 / px2mm` raises
`ZeroDivisionError` when the ratio is zero (float division), otherwise the
instance is built. -/
def ROI.init {α : Type} [Field α] [DecidableEq α]
    (roi_coordinate : ℤ × ℤ × ℤ × ℤ) (px2mm degree : α) (now : ℕ) :
    Except String (ROI α) :=
  if px2mm = 0 then .error "ZeroDivisionError: float division by zero"
  else .ok (ROI.init_state roi_coordinate px2mm degree now)

/-- The trigonometric primitives of Python's `math` module used by
`calculate_real_delta`: `radians`, `cos`, `sin`. -/
structure TrigModel (α : Type) where
  radians : α → α
  cos : α → α
  sin : α → α

/-- The genuine real-number trig model: `math.radians(d) = d·π/180`,
`math.cos`, `math.sin`. -/
noncomputable def realTrig : TrigModel ℝ :=
  { radians := fun d => d * Real.pi / 180, cos := Real.cos, sin := Real.sin }

/-- Source `ROI.calculate_real_delta(delta_pixels)` (fm_model.py lines 94-130):
projection of the pixel displacement onto the unit vector
`(cos θ, −sin θ)` of `self.degree`, then conversion to millimetres by
multiplying with the stored reciprocal `self.mm2px`. -/
def ROI.calculate_real_delta {α : Type} (T : TrigModel α) [Field α]
    (s : ROI α) (delta_pixels : α × α) : α :=
  let rad := T.radians s.degree
  let direction_x := T.cos rad
  let direction_y := -(T.sin rad)
  let projection := delta_pixels.1 * direction_x + delta_pixels.2 * direction_y
  projection * s.mm2px

/-- Rewrite the `velo` slot of the last history entry
(`self.delta_history[-1][-1] = v`; the source only executes this under the
guard `len(self.delta_history) > 1`, so the empty case is unreachable). -/
def setLastVelo {α : Type} (v : α) (l : List (DeltaEntry α)) :
    List (DeltaEntry α) :=
  match l.getLast? with
  | none => l
  | some e => l.dropLast ++ [{ e with velo := some v }]

/-- Source `ROI.calculate_velocity(delta)` (fm_model.py lines 132-149).  Compares
the already-updated `self.timestamp` with `self.timestamp_buffer`; on a
second boundary it finalises the accumulator into `velo_only_history`,
rewrites the last (pre-append) history entry's velocity slot when more than
one entry exists, and restarts the accumulator with `delta`. -/
def ROI.calculate_velocity {α : Type} [Field α] (s : ROI α) (delta : α) :
    ROI α × Bool :=
  if s.timestamp = s.timestamp_buffer then
    ({ s with current_velocity := s.current_velocity + delta }, false)
  else
    let s1 := { s with timestamp_buffer := s.timestamp }
    let s2 := if s1.delta_history.length > 1
      then { s1 with delta_history := setLastVelo s1.current_velocity s1.delta_history }
      else s1
    ({ s2 with velo_only_history := s2.velo_only_history ++ [s2.current_velocity],
               current_velocity := delta }, true)

/-- Python `l[-30:]`: the last 30 elements (the whole list when shorter). -/
def lastThirty {α : Type} (l : List α) : List α := l.drop (l.length - 30)

/-- Source `ROI.calculate_average_velocity()` (fm_model.py lines 151-158): when
`len(velo_only_history) % 30 == 0` — including length 0 — store
`sum(velo_only_history[-30:]) / 30` and report `True`. -/
def ROI.calculate_average_velocity {α : Type} [Field α] (s : ROI α) :
    ROI α × Bool :=
  if s.velo_only_history.length % 30 = 0 then
    ({ s with
        average_velocity_past_30s := some ((lastThirty s.velo_only_history).sum / 30) },
      true)
  else
    (s, false)

/-- The non-sentinel tail of `ROI.process_frame` (fm_model.py lines 82-92),
taking the sampled second-resolution timestamp `ts`, the numeric
displacement pair `px` returned by `analyze`, and the already-computed
`calibrated = calculate_real_delta(px)` as inputs: store the attributes,
update `self.timestamp`, run `calculate_velocity` then
`calculate_average_velocity`, and append the fresh history entry
`[ts, px, calibrated, None]`. -/
def ROI.processCore {α : Type} [Field α] (s : ROI α) (ts : ℕ) (px : α × α)
    (calibrated : α) : ROI α × Bool × Bool :=
  let s0 := { s with delta_pixels := some (some px),
                     calibrated_delta := some calibrated,
                     timestamp := ts }
  let r1 := ROI.calculate_velocity s0 calibrated
  let r2 := ROI.calculate_average_velocity r1.1
  let s3 := { r2.1 with delta_history :=
      r2.1.delta_history ++ [⟨ts, px, calibrated, none⟩] }
  (s3, r1.2, r2.2)

/-- Source `ROI.process_frame(frame)` (fm_model.py lines 67-92): run the motion
estimator; on the sentinel pair record only `delta_pixels` and return
`(False, False)`; otherwise calibrate and run `ROI.processCore`.  A
`ValueError` escaping `analyze` propagates before any `ROI` attribute is
assigned. -/
def ROI.process_frame {α : Type} [Field α] (O : FlowOracle α)
    (T : TrigModel α) (s : ROI α) (frame : Frame α) (now : ℕ) :
    Except String (ROI α × Bool × Bool) :=
  match VideoAnalysis.analyze O s.analysis frame with
  | .error e => .error e
  | .ok (a', dp) =>
    match dp with
    | none => .ok ({ s with analysis := a', delta_pixels := some none }, false, false)
    | some px =>
      let s0 := { s with analysis := a' }
      let calibrated := ROI.calculate_real_delta T s0 px
      .ok (ROI.processCore s0 now px calibrated)

/-- One entry of `FrameModel.frame_history`:
`{"frame_number": n, "timestamp": t}` (fm_model.py lines 250-252).  The
formatted millisecond wall-clock string is modelled by the sampled clock
value `t : ℕ`. -/
structure FrameRecord where
  frame_number : ℕ
  timestamp : ℕ
  deriving DecidableEq

/-- Outcome of `FrameModel.process_frame`: the Python method returns the
2-tuple `(None, None)` for a `None` frame, the documented 4-tuple
`(frame_count, roi_list, update_velo_plot, update_average_velo)` on the
normal path, and lets a `ValueError` raised by a ROI's analysis propagate
(`exn`; the mutations already performed remain in place). -/
inductive ProcResult (α : Type) where
  | nonePair : ProcResult α
  | results : ℕ → List (ROI α) → Bool → Bool → ProcResult α
  | exn : String → ProcResult α
  deriving DecidableEq

/-- State of `FrameModel` (fm_model.py lines 191-218). -/
structure FrameModel (α : Type) where
  frame_count : ℕ
  frame_history : List FrameRecord
  roi_list : List (ROI α)
  last_processed_time : Option ℕ
  px2mm : α
  degree : α
  current_algorithm : String
  algorithm_list : List String
  lk_params : LKParams α
  of_params : OFParams α
  deriving DecidableEq

/-- Source `FrameModel.__init__()`. -/
def FrameModel.init (α : Type) [Field α] : FrameModel α :=
  { frame_count := 0
    frame_history := []
    roi_list := []
    last_processed_time := none
    px2mm := 1
    degree := -90
    current_algorithm := "farneback"
    algorithm_list := ["farneback", "lucas-kanade"]
    lk_params := defaultLKParams α
    of_params := defaultOFParams α }

/-- The per-ROI guard of `FrameModel.process_frame` (fm_model.py line 268):
`x1 >= 0 and y1 >= 0 and x2 > 0 and y2 > 0` on
`(x, y, width, height) = coordinate[0..3]`. -/
def validCoord (c : ℤ × ℤ × ℤ × ℤ) : Bool :=
  0 ≤ c.1 && 0 ≤ c.2.1 && 0 < c.2.2.1 && 0 < c.2.2.2

/-- NumPy cropping `frame[y1 : y1 + y2, x1 : x1 + x2]` (fm_model.py line
269), evaluated only under `validCoord`, hence with nonnegative bounds. -/
def cropFrame {α : Type} (f : Frame α) (c : ℤ × ℤ × ℤ × ℤ) : Frame α :=
  ((f.drop c.2.1.toNat).take c.2.2.2.toNat).map
    (fun row => (row.drop c.1.toNat).take c.2.2.1.toNat)

/-- The ROI loop of `FrameModel.process_frame` (fm_model.py lines 258-276):
each ROI passing `validCoord` is cropped and processed in order, counting
the trackers that reported a new velocity sample and a new average; an
invalid ROI is skipped untouched.  When a tracker raises, Python keeps the
mutations already made to earlier trackers and propagates the exception:
the fold returns the partially-updated list together with the error. -/
def processROIs {α : Type} [Field α] (O : FlowOracle α) (T : TrigModel α)
    (f : Frame α) (now : ℕ) :
    List (ROI α) → List (ROI α) × ℕ × ℕ × Option String
  | [] => ([], 0, 0, none)
  | roi :: rest =>
    if validCoord roi.coordinate then
      match ROI.process_frame O T roi (cropFrame f roi.coordinate) now with
      | .error e => (roi :: rest, 0, 0, some e)
      | .ok (roi', v, a) =>
        let r := processROIs O T f now rest
        (roi' :: r.1, (if v then 1 else 0) + r.2.1, (if a then 1 else 0) + r.2.2.1,
          r.2.2.2)
    else
      let r := processROIs O T f now rest
      (roi :: r.1, r.2.1, r.2.2.1, r.2.2.2)

/-- Source `FrameModel.process_frame(frame)` (fm_model.py lines 220-284).  `now` is
the sampled wall clock, used both for the frame-history record and as the
second-resolution timestamp handed to every ROI of this frame.  A `None`
frame short-circuits to the `(None, None)` pair before any state change. -/
def FrameModel.process_frame {α : Type} [Field α] (O : FlowOracle α)
    (T : TrigModel α) (fm : FrameModel α) (frame : Option (Frame α))
    (now : ℕ) : FrameModel α × ProcResult α :=
  match frame with
  | none => (fm, ProcResult.nonePair)
  | some f =>
    let count := fm.frame_count + 1
    let fm1 := { fm with frame_count := count,
                         last_processed_time := some now,
                         frame_history := fm.frame_history ++ [FrameRecord.mk count now] }
    let r := processROIs O T f now fm1.roi_list
    let fm2 := { fm1 with roi_list := r.1 }
    match r.2.2.2 with
    | some e => (fm2, ProcResult.exn e)
    | none =>
        (fm2, ProcResult.results count fm2.roi_list
          (decide (0 < r.2.1)) (decide (0 < r.2.2.1)))

/-- Source `FrameModel.get_px_to_mm(px_ratio)` (fm_model.py lines 319-335). -/
def FrameModel.get_px_to_mm {α : Type} (fm : FrameModel α) (px_ratio : α) :
    FrameModel α :=
  { fm with px2mm := px_ratio }

/-- Source `FrameModel.get_overflow_direction(degree)` (fm_model.py lines 337-338). -/
def FrameModel.get_overflow_direction {α : Type} (fm : FrameModel α)
    (degree : α) : FrameModel α :=
  { fm with degree := degree }

/-- Source `FrameModel.add_roi(roi)` (fm_model.py lines 340-342): construct a ROI
seeded with the current global `px2mm` and `degree` and append it; the
construction raises `ZeroDivisionError` when `px2mm` is zero. -/
def FrameModel.add_roi {α : Type} [Field α] [DecidableEq α]
    (fm : FrameModel α) (roi : ℤ × ℤ × ℤ × ℤ) (now : ℕ) :
    Except String (FrameModel α) :=
  match ROI.init roi fm.px2mm fm.degree now with
  | .error e => .error e
  | .ok new_roi => .ok { fm with roi_list := fm.roi_list ++ [new_roi] }

/-- Source `FrameModel.delete_last_roi()` (fm_model.py lines 344-359). -/
def FrameModel.delete_last_roi {α : Type} (fm : FrameModel α) :
    FrameModel α × Bool :=
  if fm.roi_list.isEmpty then (fm, false)
  else ({ fm with roi_list := fm.roi_list.dropLast }, true)

/-- Source `FrameModel.reset()` (fm_model.py lines 361-364): only `frame_count`,
`frame_history` and `roi_list` are reassigned. -/
def FrameModel.reset {α : Type} (fm : FrameModel α) : FrameModel α :=
  { fm with frame_count := 0, frame_history := [], roi_list := [] }

/-- One iteration's worth of inputs to `CameraThread._capture_loop`
(camera_thread.py lines 116-164): the values of the cross-thread `paused`
and `if_release` flags as sampled by this iteration, and the result of
`video_capture.read()` (`none` models `ret == False`).  An execution of the
loop is driven by a finite list of such iterations (the loop also ends when
`running` is cleared or the capture is released, i.e. when the list runs
out). -/
structure CapIter (φ : Type) where
  paused : Bool
  read : Option φ
  release : Bool
  deriving DecidableEq

/-- Source `CameraThread._capture_loop`, as the list of frames emitted via
`frame_available.emit`: a paused iteration sleeps and continues without
reading; a failed read stops the loop; otherwise the read frame is emitted
exactly when the sampled `if_release` flag is true, and is otherwise
dropped — the loop state holds no frame storage.  (Sleeping/pacing has no
observable effect on emissions and is not modelled.) -/
def capture_loop {φ : Type} : List (CapIter φ) → List φ
  | [] => []
  | it :: rest =>
    if it.paused then capture_loop rest
    else
      match it.read with
      | none => []
      | some f => (if it.release then [f] else []) ++ capture_loop rest

/-- A trace of inputs to the non-sentinel processing core of one tracker:
per processed frame, the sampled second-resolution timestamp, the raw pixel
displacement pair returned by the estimator, and its calibrated millimetre
displacement. -/
abbrev ROITrace (α : Type) := List (ℕ × (α × α) × α)

/-- Run the tracker core over a trace of non-sentinel frames. -/
def ROI.runCore {α : Type} [Field α] (s : ROI α) : ROITrace α → ROI α
  | [] => s
  | e :: rest => ROI.runCore (ROI.processCore s e.1 e.2.1 e.2.2).1 rest

/-- The second-resolution timestamp of the previously processed frame of a
trace — the value held in `timestamp_buffer`: the creation timestamp `t0`
while no frame has been processed, the last frame's timestamp afterwards. -/
def prevTs {α : Type} (t0 : ℕ) (tr : ROITrace α) : ℕ :=
  tr.foldl (fun _ e => e.1) t0

/-- Sum of the calibrated displacements of exactly those trace frames whose
second-resolution timestamp is `t`. -/
def secSum {α : Type} [Field α] (t : ℕ) (tr : ROITrace α) : α :=
  ((tr.filter (fun e => decide (e.1 = t))).map (fun e => e.2.2)).sum

/-- The trace's timestamps are non-decreasing, starting from the creation
timestamp `t0` — the shape every wall-clock sampling produces. -/
def tsMonoB {α : Type} (t0 : ℕ) : ROITrace α → Bool
  | [] => true
  | e :: rest => decide (t0 ≤ e.1) && tsMonoB e.1 rest

theorem runCore_append {α : Type} [Field α] (s : ROI α) (l1 l2 : ROITrace α) :
    ROI.runCore s (l1 ++ l2) = ROI.runCore (ROI.runCore s l1) l2 := by
  induction l1 generalizing s with
  | nil => rfl
  | cons e rest ih => simp [ROI.runCore, ih]

theorem prevTs_cons {α : Type} (t0 : ℕ) (e : ℕ × (α × α) × α)
    (tr : ROITrace α) : prevTs t0 (e :: tr) = prevTs e.1 tr := rfl

theorem prevTs_append_singleton {α : Type} (t0 : ℕ) (tr : ROITrace α)
    (e : ℕ × (α × α) × α) : prevTs t0 (tr ++ [e]) = e.1 := by
  simp [prevTs, List.foldl_append]

theorem tsMonoB_append {α : Type} (t0 : ℕ) (l1 l2 : ROITrace α) :
    tsMonoB t0 (l1 ++ l2) = (tsMonoB t0 l1 && tsMonoB (prevTs t0 l1) l2) := by
  induction l1 generalizing t0 with
  | nil => simp [tsMonoB, prevTs]
  | cons e rest ih =>
      simp [tsMonoB, prevTs_cons, ih e.1, Bool.and_assoc]

theorem le_prevTs {α : Type} (t0 : ℕ) (tr : ROITrace α)
    (h : tsMonoB t0 tr = true) : t0 ≤ prevTs t0 tr := by
  induction tr generalizing t0 with
  | nil => simp [prevTs]
  | cons e rest ih =>
      simp only [tsMonoB, Bool.and_eq_true, decide_eq_true_eq] at h
      exact le_trans h.1 (by simpa [prevTs_cons] using ih e.1 h.2)

theorem mem_ts_le_prevTs {α : Type} (t0 : ℕ) (tr : ROITrace α)
    (h : tsMonoB t0 tr = true) (e : ℕ × (α × α) × α) (he : e ∈ tr) :
    e.1 ≤ prevTs t0 tr := by
  induction tr generalizing t0 with
  | nil => cases he
  | cons a rest ih =>
      simp only [tsMonoB, Bool.and_eq_true, decide_eq_true_eq] at h
      rcases List.mem_cons.mp he with rfl | hmem
      · simpa [prevTs_cons] using le_prevTs e.1 rest h.2
      · simpa [prevTs_cons] using ih a.1 h.2 hmem

theorem secSum_append_singleton {α : Type} [Field α] (t : ℕ)
    (tr : ROITrace α) (e : ℕ × (α × α) × α) :
    secSum t (tr ++ [e]) = secSum t tr + (if e.1 = t then e.2.2 else 0) := by
  by_cases h : e.1 = t <;> simp [secSum, List.filter_append, h]

theorem secSum_eq_zero {α : Type} [Field α] (t : ℕ) (tr : ROITrace α)
    (h : ∀ e ∈ tr, e.1 ≠ t) : secSum t tr = 0 := by
  have : tr.filter (fun e => decide (e.1 = t)) = [] := by
    refine List.filter_eq_nil_iff.mpr ?_
    intro e he
    simpa using h e he
  simp [secSum, this]

theorem processCore_same {α : Type} [Field α] (s : ROI α) (ts : ℕ)
    (px : α × α) (d : α) (h : ts = s.timestamp_buffer) :
    (ROI.processCore s ts px d).2.1 = false ∧
    (ROI.processCore s ts px d).1.timestamp_buffer = s.timestamp_buffer ∧
    (ROI.processCore s ts px d).1.current_velocity = s.current_velocity + d ∧
    (ROI.processCore s ts px d).1.velo_only_history = s.velo_only_history ∧
    (ROI.processCore s ts px d).1.delta_history =
      s.delta_history ++ [DeltaEntry.mk ts px d none] := by
  simp only [ROI.processCore, ROI.calculate_velocity, ROI.calculate_average_velocity]
  simp only [h, if_true, reduceIte]
  split <;> simp

theorem processCore_diff {α : Type} [Field α] (s : ROI α) (ts : ℕ)
    (px : α × α) (d : α) (h : ts ≠ s.timestamp_buffer) :
    (ROI.processCore s ts px d).2.1 = true ∧
    (ROI.processCore s ts px d).1.timestamp_buffer = ts ∧
    (ROI.processCore s ts px d).1.current_velocity = d ∧
    (ROI.processCore s ts px d).1.velo_only_history =
      s.velo_only_history ++ [s.current_velocity] ∧
    (ROI.processCore s ts px d).1.delta_history =
      (if 1 < s.delta_history.length
        then setLastVelo s.current_velocity s.delta_history
        else s.delta_history) ++ [DeltaEntry.mk ts px d none] := by
  simp only [ROI.processCore, ROI.calculate_velocity, ROI.calculate_average_velocity]
  simp only [h, if_false, reduceIte]
  split <;> split <;> simp

theorem runCore_singleton {α : Type} [Field α] (s : ROI α)
    (e : ℕ × (α × α) × α) :
    ROI.runCore s [e] = (ROI.processCore s e.1 e.2.1 e.2.2).1 := rfl

theorem runCore_invariant {α : Type} [Field α] (coord : ℤ × ℤ × ℤ × ℤ)
    (r deg : α) (t0 : ℕ) (tr : ROITrace α) (h : tsMonoB t0 tr = true) :
    (ROI.runCore (ROI.init_state coord r deg t0) tr).timestamp_buffer =
      prevTs t0 tr ∧
    (ROI.runCore (ROI.init_state coord r deg t0) tr).current_velocity =
      secSum (prevTs t0 tr) tr := by
  induction tr using List.reverseRecOn with
  | nil => simp [ROI.runCore, ROI.init_state, prevTs, secSum]
  | append_singleton l e ih =>
      rw [tsMonoB_append] at h
      simp only [Bool.and_eq_true] at h
      have hmono : tsMonoB t0 l = true := h.1
      have hle : prevTs t0 l ≤ e.1 := by
        have := h.2
        simp only [tsMonoB, Bool.and_eq_true, decide_eq_true_eq] at this
        exact this.1
      obtain ⟨ihb, ihc⟩ := ih hmono
      rw [runCore_append, runCore_singleton]
      rw [prevTs_append_singleton]
      by_cases hc : e.1 = (ROI.runCore (ROI.init_state coord r deg t0) l).timestamp_buffer
      · obtain ⟨-, hb, hcv, -, -⟩ :=
          processCore_same (ROI.runCore (ROI.init_state coord r deg t0) l)
            e.1 e.2.1 e.2.2 hc
        rw [ihb] at hc
        constructor
        · rw [hb, ihb, hc]
        · rw [hcv, ihc, secSum_append_singleton, hc, if_pos rfl]
      · obtain ⟨-, hb, hcv, -, -⟩ :=
          processCore_diff (ROI.runCore (ROI.init_state coord r deg t0) l)
            e.1 e.2.1 e.2.2 hc
        rw [ihb] at hc
        constructor
        · exact hb
        · rw [hcv, secSum_append_singleton, if_pos rfl]
          have hz : secSum e.1 l = 0 := by
            refine secSum_eq_zero e.1 l ?_
            intro x hx
            have hx1 : x.1 ≤ prevTs t0 l := mem_ts_le_prevTs t0 l hmono x hx
            have : prevTs t0 l < e.1 := lt_of_le_of_ne hle (fun hh => hc hh.symm)
            omega
          rw [hz, zero_add]

theorem tsMonoB_take {α : Type} (t0 : ℕ) (tr : ROITrace α) (i : ℕ)
    (hm : tsMonoB t0 tr = true) : tsMonoB t0 (tr.take i) = true := by
  have hsplit : tr.take i ++ tr.drop i = tr := List.take_append_drop i tr
  rw [← hsplit, tsMonoB_append, Bool.and_eq_true] at hm
  exact hm.1

/-- Claim C3 (confirmed).  For every ROI tracker freshly constructed at
creation timestamp `t0` and every non-decreasing sequence of non-sentinel
process calls (each carrying its sampled second-resolution timestamp, raw
pixel displacement and calibrated displacement), the call at position `i`
finalises a velocity sample exactly when its timestamp differs from that of
the previously processed frame (the creation timestamp, held in
`timestamp_buffer` by `__init__`, when no frame was processed yet); and
every finalised sample — the value appended to `velo_only_history` — equals
the sum of the calibrated displacements of exactly those earlier frames
whose timestamps share the preceding second. -/
theorem claim3_velocity_finalization {α : Type} [Field α]
    (coord : ℤ × ℤ × ℤ × ℤ) (r deg : α) (t0 : ℕ) (tr : ROITrace α) (i : ℕ)
    (hi : i < tr.length) (hm : tsMonoB t0 tr = true) :
    ((ROI.processCore (ROI.runCore (ROI.init_state coord r deg t0) (tr.take i))
        (tr.get ⟨i, hi⟩).1 (tr.get ⟨i, hi⟩).2.1 (tr.get ⟨i, hi⟩).2.2).2.1 = true
      ↔ (tr.get ⟨i, hi⟩).1 ≠ prevTs t0 (tr.take i)) ∧
    ((tr.get ⟨i, hi⟩).1 ≠ prevTs t0 (tr.take i) →
      (ROI.processCore (ROI.runCore (ROI.init_state coord r deg t0) (tr.take i))
          (tr.get ⟨i, hi⟩).1 (tr.get ⟨i, hi⟩).2.1 (tr.get ⟨i, hi⟩).2.2).1.velo_only_history =
        (ROI.runCore (ROI.init_state coord r deg t0) (tr.take i)).velo_only_history ++
          [secSum (prevTs t0 (tr.take i)) (tr.take i)]) := by
  obtain ⟨hb, hcv⟩ :=
    runCore_invariant coord r deg t0 (tr.take i) (tsMonoB_take t0 tr i hm)
  constructor
  · by_cases hc : (tr.get ⟨i, hi⟩).1 = prevTs t0 (tr.take i)
    · obtain ⟨hf, -, -, -, -⟩ :=
        processCore_same (ROI.runCore (ROI.init_state coord r deg t0) (tr.take i))
          (tr.get ⟨i, hi⟩).1 (tr.get ⟨i, hi⟩).2.1 (tr.get ⟨i, hi⟩).2.2
          (by rw [hb]; exact hc)
      rw [hf]
      simpa using hc
    · obtain ⟨hf, -, -, -, -⟩ :=
        processCore_diff (ROI.runCore (ROI.init_state coord r deg t0) (tr.take i))
          (tr.get ⟨i, hi⟩).1 (tr.get ⟨i, hi⟩).2.1 (tr.get ⟨i, hi⟩).2.2
          (by rw [hb]; exact hc)
      rw [hf]
      simpa using hc
  · intro hne
    obtain ⟨-, -, -, hv, -⟩ :=
      processCore_diff (ROI.runCore (ROI.init_state coord r deg t0) (tr.take i))
        (tr.get ⟨i, hi⟩).1 (tr.get ⟨i, hi⟩).2.1 (tr.get ⟨i, hi⟩).2.2
        (by rw [hb]; exact hne)
    rw [hv, hcv]

/-- Witness for C3: a fresh tracker created at second 0, two non-sentinel
frames at seconds 0 and 1; the second call finalises the sample 1/2, the
sum of the single frame of second 0. -/
theorem claim3_witness :
    ((ROI.processCore
        (ROI.runCore (ROI.init_state (0, 0, 1, 1) (1 : ℚ) 0 0)
          (([(0, (0, 0), 1 / 2), (1, (0, 0), 3)] : ROITrace ℚ).take 1))
        1 (0, 0) 3).2.1 = true ↔
      (1 : ℕ) ≠ prevTs 0 (([(0, (0, 0), 1 / 2), (1, (0, 0), 3)] : ROITrace ℚ).take 1)) ∧
    ((ROI.processCore
        (ROI.runCore (ROI.init_state (0, 0, 1, 1) (1 : ℚ) 0 0)
          (([(0, (0, 0), 1 / 2), (1, (0, 0), 3)] : ROITrace ℚ).take 1))
        1 (0, 0) 3).1.velo_only_history =
      (ROI.runCore (ROI.init_state (0, 0, 1, 1) (1 : ℚ) 0 0)
          (([(0, (0, 0), 1 / 2), (1, (0, 0), 3)] : ROITrace ℚ).take 1)).velo_only_history ++
        [secSum (prevTs 0 (([(0, (0, 0), 1 / 2), (1, (0, 0), 3)] : ROITrace ℚ).take 1))
          (([(0, (0, 0), 1 / 2), (1, (0, 0), 3)] : ROITrace ℚ).take 1)]) := by
  have h := claim3_velocity_finalization (0, 0, 1, 1) (1 : ℚ) 0 0
    ([(0, (0, 0), 1 / 2), (1, (0, 0), 3)] : ROITrace ℚ) 1 (by decide) (by decide)
  exact ⟨h.1, h.2 (by decide)⟩

theorem setLastVelo_concat {α : Type} (v : α) (l : List (DeltaEntry α))
    (a : DeltaEntry α) :
    setLastVelo v (l ++ [a]) = l ++ [{ a with velo := some v }] := by
  simp [setLastVelo, List.getLast?_concat, List.dropLast_concat]

theorem setLastVelo_length {α : Type} (v : α) (l : List (DeltaEntry α)) :
    (setLastVelo v l).length = l.length := by
  rcases List.eq_nil_or_concat l with rfl | ⟨l', a, rfl⟩
  · rfl
  · simp [List.concat_eq_append, setLastVelo_concat]

theorem setLastVelo_getElem_last {α : Type} (v : α) (l : List (DeltaEntry α))
    (h : l ≠ []) :
    (setLastVelo v l)[l.length - 1]? =
      (l[l.length - 1]?).map (fun e => { e with velo := some v }) := by
  rcases List.eq_nil_or_concat l with rfl | ⟨l', a, rfl⟩
  · exact absurd rfl h
  · simp only [List.concat_eq_append, setLastVelo_concat]
    have hlen : (l' ++ [a]).length - 1 = l'.length := by simp
    rw [hlen, List.getElem?_concat_length, List.getElem?_concat_length]
    rfl

/-- Counterexample to claim C4 as stated: a tracker created at second 0
processes one frame in second 0 and one in second 1.  At the second call a
velocity sample (value 1) is finalised — the history then contains an entry
one position before the entry being appended (the entry of the first
frame) — yet its velocity field is left `none`, because the source guards
the write-back with `len(self.delta_history) > 1`, which fails
pre-append. -/
theorem claim4_counterexample :
    (ROI.runCore (ROI.init_state (0, 0, 1, 1) (1 : ℚ) 0 0)
        [(0, (0, 0), 1), (1, (0, 0), 1)]).velo_only_history = [1] ∧
    (ROI.runCore (ROI.init_state (0, 0, 1, 1) (1 : ℚ) 0 0)
        [(0, (0, 0), 1), (1, (0, 0), 1)]).delta_history.length = 2 ∧
    ((ROI.runCore (ROI.init_state (0, 0, 1, 1) (1 : ℚ) 0 0)
        [(0, (0, 0), 1), (1, (0, 0), 1)]).delta_history.map
          (fun e => e.velo)) = [none, none] := by
  norm_num [ROI.runCore, ROI.processCore, ROI.calculate_velocity,
    ROI.calculate_average_velocity, ROI.init_state, lastThirty]

/-- Claim C4 as amended: at a second boundary the finalised sample (the
running accumulator) is written into the velocity field of the entry one
position before the entry being appended — i.e. the second-to-last entry
after the append — but only when the history holds **more than one** entry
before the append; at a boundary with at most one prior entry the sample is
appended to the velocity-only history without being written into any
history entry. -/
theorem claim4_velocity_writeback_amended {α : Type} [Field α] (s : ROI α)
    (ts : ℕ) (px : α × α) (d : α) (h : ts ≠ s.timestamp_buffer) :
    (ROI.processCore s ts px d).2.1 = true ∧
    (ROI.processCore s ts px d).1.delta_history.length =
      s.delta_history.length + 1 ∧
    (1 < s.delta_history.length →
      ((ROI.processCore s ts px d).1.delta_history)[s.delta_history.length - 1]? =
        (s.delta_history[s.delta_history.length - 1]?).map
          (fun e => { e with velo := some s.current_velocity })) ∧
    (¬ 1 < s.delta_history.length →
      (ROI.processCore s ts px d).1.delta_history =
        s.delta_history ++ [DeltaEntry.mk ts px d none]) := by
  obtain ⟨hf, -, -, -, hd⟩ := processCore_diff s ts px d h
  refine ⟨hf, ?_, ?_, ?_⟩
  · rw [hd]
    split <;> simp [setLastVelo_length]
  · intro hlen
    rw [hd, if_pos hlen]
    rw [List.getElem?_append_left
      (by rw [setLastVelo_length]; omega)]
    exact setLastVelo_getElem_last s.current_velocity s.delta_history
      (by intro hnil; rw [hnil] at hlen; simp at hlen)
  · intro hlen
    rw [hd, if_neg hlen]

/-- The tracker state used by the C4 witness: created at second 0, two
frames processed within second 0 (accumulator 2, two history entries). -/
def c4state : ROI ℚ :=
  ROI.runCore (ROI.init_state (0, 0, 1, 1) (1 : ℚ) 0 0)
    [(0, (0, 0), 1), (0, (0, 0), 1)]

/-- Witness for the amended C4: after two frames in second 0 the history
has two entries and the accumulator is 2; the boundary frame at second 1
writes the finalised sample into the second-to-last entry. -/
theorem claim4_witness :
    (ROI.processCore c4state 1 (0, 0) 5).2.1 = true ∧
    ((ROI.processCore c4state 1 (0, 0) 5).1.delta_history)[1]? =
      (c4state.delta_history[1]?).map
        (fun e => { e with velo := some c4state.current_velocity }) := by
  have h := claim4_velocity_writeback_amended c4state 1 (0, 0) 5 (by decide)
  exact ⟨h.1, h.2.2.1 (by decide)⟩

/-- Arithmetic mean of a list of samples. -/
def arithMean {α : Type} [Field α] (l : List α) : α := l.sum / (l.length : α)

theorem calc_velocity_avg_untouched {α : Type} [Field α] (w : ROI α)
    (d : α) :
    (ROI.calculate_velocity w d).1.average_velocity_past_30s =
      w.average_velocity_past_30s := by
  unfold ROI.calculate_velocity
  split
  · rfl
  · dsimp only
    split <;> rfl

theorem calc_avg_char {α : Type} [Field α] (u : ROI α) :
    (ROI.calculate_average_velocity u).2 =
      decide (u.velo_only_history.length % 30 = 0) ∧
    (ROI.calculate_average_velocity u).1.velo_only_history =
      u.velo_only_history ∧
    (u.velo_only_history.length % 30 = 0 →
      (ROI.calculate_average_velocity u).1.average_velocity_past_30s =
        some ((lastThirty u.velo_only_history).sum / 30)) ∧
    (u.velo_only_history.length % 30 ≠ 0 →
      (ROI.calculate_average_velocity u).1.average_velocity_past_30s =
        u.average_velocity_past_30s) := by
  unfold ROI.calculate_average_velocity
  by_cases h : u.velo_only_history.length % 30 = 0 <;> simp [h]

theorem lastThirty_length_of_le {α : Type} (l : List α) (h : 30 ≤ l.length) :
    (lastThirty l).length = 30 := by
  simp [lastThirty]
  omega

/-- Counterexample to claim C2 as stated: a fresh tracker (creation second
0, empty velocity-only history) processes one frame within second 0.  The
history length is 0 — not a positive multiple of 30 — yet the
average-refresh flag is true and the stored average changes from `None`
to 0, because the source condition `len(velo_only_history) % 30 == 0`
also fires at length zero. -/
theorem claim2_counterexample :
    (ROI.processCore (ROI.init_state (0, 0, 1, 1) (1 : ℚ) 0 0) 0 (0, 0) 1).2.2 = true ∧
    (ROI.processCore (ROI.init_state (0, 0, 1, 1) (1 : ℚ) 0 0) 0 (0, 0)
        1).1.velo_only_history.length = 0 ∧
    (ROI.processCore (ROI.init_state (0, 0, 1, 1) (1 : ℚ) 0 0) 0 (0, 0)
        1).1.average_velocity_past_30s = some 0 ∧
    (ROI.init_state (0, 0, 1, 1) (1 : ℚ) 0 0).average_velocity_past_30s = none := by
  norm_num [ROI.processCore, ROI.calculate_velocity,
    ROI.calculate_average_velocity, ROI.init_state, lastThirty]

/-- Claim C2 as amended: the rolling average is recomputed exactly when the
velocity-only history length is a multiple of 30 **including zero**; at a
positive multiple it becomes the arithmetic mean of the last 30 samples, at
length zero it becomes 0 (the empty sum divided by 30) with the refresh
flag also true, and at every other length the stored average is unchanged
and the flag returned by the processing step is false. -/
theorem claim2_average_refresh_amended {α : Type} [Field α] (s : ROI α)
    (ts : ℕ) (px : α × α) (d : α) :
    ((ROI.processCore s ts px d).2.2 = true ↔
      (ROI.processCore s ts px d).1.velo_only_history.length % 30 = 0) ∧
    (30 ≤ (ROI.processCore s ts px d).1.velo_only_history.length →
      (ROI.processCore s ts px d).1.velo_only_history.length % 30 = 0 →
      (ROI.processCore s ts px d).1.average_velocity_past_30s =
        some (arithMean (lastThirty (ROI.processCore s ts px d).1.velo_only_history))) ∧
    ((ROI.processCore s ts px d).1.velo_only_history.length = 0 →
      (ROI.processCore s ts px d).2.2 = true ∧
      (ROI.processCore s ts px d).1.average_velocity_past_30s = some 0) ∧
    ((ROI.processCore s ts px d).1.velo_only_history.length % 30 ≠ 0 →
      (ROI.processCore s ts px d).1.average_velocity_past_30s =
        s.average_velocity_past_30s) := by
  obtain ⟨hflag, hlist, hpos, hneg⟩ :=
    calc_avg_char (ROI.calculate_velocity { s with
      delta_pixels := some (some px), calibrated_delta := some d,
      timestamp := ts } d).1
  have e1 : (ROI.processCore s ts px d).2.2 =
      (ROI.calculate_average_velocity (ROI.calculate_velocity { s with
        delta_pixels := some (some px), calibrated_delta := some d,
        timestamp := ts } d).1).2 := rfl
  have e2 : (ROI.processCore s ts px d).1.velo_only_history =
      (ROI.calculate_average_velocity (ROI.calculate_velocity { s with
        delta_pixels := some (some px), calibrated_delta := some d,
        timestamp := ts } d).1).1.velo_only_history := rfl
  have e3 : (ROI.processCore s ts px d).1.average_velocity_past_30s =
      (ROI.calculate_average_velocity (ROI.calculate_velocity { s with
        delta_pixels := some (some px), calibrated_delta := some d,
        timestamp := ts } d).1).1.average_velocity_past_30s := rfl
  rw [e1, e2, e3, hlist, hflag]
  refine ⟨by simp, ?_, ?_, ?_⟩
  · intro h30 hmod
    rw [hpos hmod, arithMean, lastThirty_length_of_le _ h30]
    norm_num
  · intro h0
    have hmod : (ROI.calculate_velocity { s with
        delta_pixels := some (some px), calibrated_delta := some d,
        timestamp := ts } d).1.velo_only_history.length % 30 = 0 := by
      rw [h0]
    refine ⟨by simp [hmod], ?_⟩
    rw [hpos hmod]
    have : (ROI.calculate_velocity { s with
        delta_pixels := some (some px), calibrated_delta := some d,
        timestamp := ts } d).1.velo_only_history = [] :=
      List.eq_nil_of_length_eq_zero h0
    simp [this, lastThirty]
  · intro hmod
    rw [hneg hmod, calc_velocity_avg_untouched]

/-- Tracker state used by the C2 witness: 29 velocity samples already
finalised, accumulator 1. -/
def c2state : ROI ℚ :=
  { ROI.init_state (0, 0, 1, 1) (1 : ℚ) 0 0 with
      velo_only_history := List.replicate 29 1, current_velocity := 1 }

/-- Witness for the amended C2: the boundary frame that finalises the 30th
velocity sample turns the refresh flag on and stores the arithmetic mean of
the last 30 samples. -/
theorem claim2_witness :
    (ROI.processCore c2state 1 (0, 0) 5).2.2 = true ∧
    (ROI.processCore c2state 1 (0, 0) 5).1.average_velocity_past_30s =
      some (arithMean (lastThirty
        (ROI.processCore c2state 1 (0, 0) 5).1.velo_only_history)) := by
  have h := claim2_average_refresh_amended c2state 1 (0, 0) 5
  exact ⟨h.1.mpr (by decide), h.2.1 (by decide) (by decide)⟩

/-- Claim C1 (code bug).  For every fresh estimator in its default
configuration (as created by each ROI: `VideoAnalysis(0, 0)`), the first
`analyze` call does store the frame as "previous" and return the sentinel
pair — but the second call, instead of returning a numeric pair, raises
`ValueError("Unknown algorithm: Farneback")` for every possible frame pair
and every flow oracle: `__init__` spells the default algorithm
`"Farneback"` while `analyze` dispatches on `"farneback"` and
`"lucas-kanade"` only. -/
theorem claim1_default_algorithm_second_call_raises {α : Type} [Field α]
    (O : FlowOracle α) (f1 f2 : Frame α) :
    VideoAnalysis.analyze O (VideoAnalysis.init α 0 0) f1 =
      .ok ({ VideoAnalysis.init α 0 0 with previous_frame := some f1 }, none) ∧
    VideoAnalysis.analyze O
        { VideoAnalysis.init α 0 0 with previous_frame := some f1 } f2 =
      .error "Unknown algorithm: Farneback" := by
  exact ⟨rfl, rfl⟩

/-- Claim C9 (confirmed).  Processing a `None` frame returns the 2-tuple
`(None, None)` — not the documented 4-tuple — without incrementing the
frame counter or touching the frame history or any tracker. -/
theorem claim9_none_frame {α : Type} [Field α] (O : FlowOracle α)
    (T : TrigModel α) (fm : FrameModel α) (now : ℕ) :
    FrameModel.process_frame O T fm none now = (fm, ProcResult.nonePair) ∧
    (FrameModel.process_frame O T fm none now).1.frame_count = fm.frame_count ∧
    (FrameModel.process_frame O T fm none now).1.frame_history = fm.frame_history ∧
    (FrameModel.process_frame O T fm none now).1.roi_list = fm.roi_list :=
  ⟨rfl, rfl, rfl, rfl⟩

/-- Counterexample to claim C6 as stated: set the calibration ratio to 2,
then `reset()`.  The resulting state still carries `px2mm = 2` while a
fresh orchestrator carries `px2mm = 1`, so the reset state is
distinguishable from a newly constructed one. -/
theorem claim6_counterexample :
    (FrameModel.reset ((FrameModel.init ℚ).get_px_to_mm 2)).px2mm = 2 ∧
    (FrameModel.init ℚ).px2mm = 1 ∧
    FrameModel.reset ((FrameModel.init ℚ).get_px_to_mm 2) ≠ FrameModel.init ℚ := by
  refine ⟨rfl, rfl, ?_⟩
  intro h
  have h2 := congrArg FrameModel.px2mm h
  have : (2 : ℚ) = 1 := h2
  norm_num at this

/-- Claim C6 as amended: `reset()` restores the frame counter, frame
history and tracker list to their freshly-constructed values, but leaves
every other field — in particular the calibration ratio, the direction
angle and the last-processed-time — at its pre-reset value, so the result
is not in general indistinguishable from a new instance. -/
theorem claim6_reset_amended {α : Type} [Field α] (fm : FrameModel α) :
    (FrameModel.reset fm).frame_count = (FrameModel.init α).frame_count ∧
    (FrameModel.reset fm).frame_history = (FrameModel.init α).frame_history ∧
    (FrameModel.reset fm).roi_list = (FrameModel.init α).roi_list ∧
    (FrameModel.reset fm).px2mm = fm.px2mm ∧
    (FrameModel.reset fm).degree = fm.degree ∧
    (FrameModel.reset fm).last_processed_time = fm.last_processed_time ∧
    (FrameModel.reset fm).current_algorithm = fm.current_algorithm ∧
    (FrameModel.reset fm).algorithm_list = fm.algorithm_list ∧
    (FrameModel.reset fm).lk_params = fm.lk_params ∧
    (FrameModel.reset fm).of_params = fm.of_params :=
  ⟨rfl, rfl, rfl, rfl, rfl, rfl, rfl, rfl, rfl, rfl⟩

/-- Claim C10 (confirmed).  `add_roi` constructs the ROI with the current
global ratio: construction succeeds exactly when the ratio is nonzero,
storing the reciprocal `mm2px = 1 / ratio`; a zero ratio raises
`ZeroDivisionError`, so a nonzero ratio is a precondition for `add_roi` to
complete. -/
theorem claim10_ratio_reciprocal {α : Type} [Field α] [DecidableEq α]
    (fm : FrameModel α) (coord : ℤ × ℤ × ℤ × ℤ) (now : ℕ) :
    (fm.px2mm ≠ 0 →
      FrameModel.add_roi fm coord now =
        .ok { fm with roi_list :=
          fm.roi_list ++ [ROI.init_state coord fm.px2mm fm.degree now] } ∧
      (ROI.init_state coord fm.px2mm fm.degree now).mm2px = 1 / fm.px2mm) ∧
    (fm.px2mm = 0 →
      FrameModel.add_roi fm coord now =
        .error "ZeroDivisionError: float division by zero") := by
  constructor
  · intro h
    constructor
    · simp [FrameModel.add_roi, ROI.init, h]
    · rfl
  · intro h
    simp [FrameModel.add_roi, ROI.init, h]

/-- Witness for C10: a fresh orchestrator (ratio 1) accepts a ROI whose
`mm2px` is `1/1`; after setting the ratio to 0, adding a ROI raises
`ZeroDivisionError`. -/
theorem claim10_witness :
    (FrameModel.add_roi (FrameModel.init ℚ) (0, 0, 1, 1) 5 =
      .ok { FrameModel.init ℚ with roi_list :=
        (FrameModel.init ℚ).roi_list ++
          [ROI.init_state (0, 0, 1, 1) (FrameModel.init ℚ).px2mm
            (FrameModel.init ℚ).degree 5] } ∧
      (ROI.init_state (0, 0, 1, 1) (FrameModel.init ℚ).px2mm
        (FrameModel.init ℚ).degree 5).mm2px = 1 / (FrameModel.init ℚ).px2mm) ∧
    FrameModel.add_roi ((FrameModel.init ℚ).get_px_to_mm 0) (0, 0, 1, 1) 5 =
      .error "ZeroDivisionError: float division by zero" := by
  constructor
  · exact (claim10_ratio_reciprocal (FrameModel.init ℚ) (0, 0, 1, 1) 5).1
      (by norm_num [FrameModel.init])
  · exact (claim10_ratio_reciprocal ((FrameModel.init ℚ).get_px_to_mm 0)
      (0, 0, 1, 1) 5).2 rfl

/-- Claim C5 (confirmed).  With ratio `r > 0` and direction `θ` degrees
captured at construction, the calibrated millimetre displacement of a pixel
displacement `(dx, dy)` is `(dx·cos θ − dy·sin θ) / r`; for `θ = 0` it is
`dx / r` and for `θ = 90` it is `−dy / r`.  (The source multiplies by the
stored reciprocal `mm2px = 1/r`, which agrees with division by `r`.) -/
theorem claim5_calibration_projection (coord : ℤ × ℤ × ℤ × ℤ)
    (r θ dx dy : ℝ) (now : ℕ) (hr : 0 < r) :
    (ROI.calculate_real_delta realTrig (ROI.init_state coord r θ now) (dx, dy) =
      (dx * Real.cos (θ * Real.pi / 180) - dy * Real.sin (θ * Real.pi / 180)) / r) ∧
    (θ = 0 →
      ROI.calculate_real_delta realTrig (ROI.init_state coord r θ now) (dx, dy) =
        dx / r) ∧
    (θ = 90 →
      ROI.calculate_real_delta realTrig (ROI.init_state coord r θ now) (dx, dy) =
        -dy / r) := by
  refine ⟨?_, ?_, ?_⟩
  · show (dx * Real.cos (θ * Real.pi / 180) +
        dy * (-(Real.sin (θ * Real.pi / 180)))) * (1 / r) = _
    ring
  · intro h
    subst h
    show (dx * Real.cos (0 * Real.pi / 180) +
        dy * (-(Real.sin (0 * Real.pi / 180)))) * (1 / r) = dx / r
    rw [zero_mul, zero_div, Real.cos_zero, Real.sin_zero]
    ring
  · intro h
    subst h
    show (dx * Real.cos (90 * Real.pi / 180) +
        dy * (-(Real.sin (90 * Real.pi / 180)))) * (1 / r) = -dy / r
    have h90 : (90 : ℝ) * Real.pi / 180 = Real.pi / 2 := by ring
    rw [h90, Real.cos_pi_div_two, Real.sin_pi_div_two]
    ring

/-- Witness for C5 at ratio 1, direction 0°, displacement (3, 5). -/
theorem claim5_witness :
    (0 : ℝ) < 1 ∧
    ROI.calculate_real_delta realTrig (ROI.init_state (0, 0, 1, 1) (1 : ℝ) 0 0)
      (3, 5) = 3 / 1 :=
  ⟨by norm_num,
    (claim5_calibration_projection (0, 0, 1, 1) 1 0 3 5 0 (by norm_num)).2.1 rfl⟩

theorem capture_loop_countP_le {φ : Type} [DecidableEq φ]
    (tr : List (CapIter φ)) (f : φ) :
    (capture_loop tr).countP (fun x => decide (x = f)) ≤
      (tr.filter
        (fun it => !it.paused && it.release && decide (it.read = some f))).length := by
  induction tr with
  | nil => simp [capture_loop]
  | cons it rest ih =>
      by_cases hp : it.paused = true
      · simp only [capture_loop, hp, if_true]
        refine le_trans ih ?_
        simp [List.filter_cons, hp]
      · simp only [Bool.not_eq_true] at hp
        rcases hread : it.read with - | g
        · simp [capture_loop, hp, hread, List.filter_cons]
        · by_cases hrel : it.release = true
          · by_cases hgf : g = f
            · subst hgf
              simp [capture_loop, hp, hread, hrel, List.filter_cons,
                List.countP_append, List.countP_cons]
              omega
            · simp only [capture_loop, hp, hread, hrel, Bool.false_eq_true,
                if_false, if_true, List.countP_append]
              have hcnt : ([g].countP (fun x => decide (x = f))) = 0 := by
                simp [List.countP_cons, hgf]
              rw [hcnt]
              refine le_trans (by omega : _ ≤ (capture_loop rest).countP
                (fun x => decide (x = f))) (le_trans ih ?_)
              rw [List.filter_cons]
              split <;> simp
          · simp only [Bool.not_eq_true] at hrel
            simp only [capture_loop, hp, hread, hrel, Bool.false_eq_true,
              if_false, List.nil_append]
            refine le_trans ih ?_
            simp [List.filter_cons, hrel]

theorem capture_loop_not_mem {φ : Type} (tr : List (CapIter φ)) (f : φ)
    (h : ∀ it ∈ tr, it.read = some f → it.release = false) :
    f ∉ capture_loop tr := by
  induction tr with
  | nil => simp [capture_loop]
  | cons it rest ih =>
      have hrest : ∀ x ∈ rest, x.read = some f → x.release = false :=
        fun x hx => h x (List.mem_cons_of_mem it hx)
      by_cases hp : it.paused = true
      · simpa [capture_loop, hp] using ih hrest
      · simp only [Bool.not_eq_true] at hp
        rcases hread : it.read with - | g
        · simp [capture_loop, hp, hread]
        · by_cases hrel : it.release = true
          · have hgf : g ≠ f := by
              intro hg
              subst hg
              have := h it (List.mem_cons_self it rest) hread
              rw [this] at hrel
              exact Bool.false_ne_true hrel
            simp only [capture_loop, hp, hread, hrel, Bool.false_eq_true,
              if_false, if_true, List.singleton_append]
            intro hmem
            rcases List.mem_cons.mp hmem with rfl | hmem2
            · exact hgf rfl
            · exact ih hrest hmem2
          · simp only [Bool.not_eq_true] at hrel
            simpa [capture_loop, hp, hread, hrel] using ih hrest

/-- Claim C8 (confirmed).  Modelling each loop iteration by the values of
the cross-thread flags it samples and the outcome of its
`video_capture.read()`: every frame value occurs in the emitted stream at
most as often as there are iterations that read it with the release flag
sampled true — so a frame is emitted only under a true release flag at the
moment of emission — and a frame value read only at release-false
iterations is never emitted, then or later: the loop holds no buffer or
queue. -/
theorem claim8_capture_release_gate {φ : Type} [DecidableEq φ]
    (tr : List (CapIter φ)) (f : φ) :
    ((capture_loop tr).countP (fun x => decide (x = f)) ≤
      (tr.filter
        (fun it => !it.paused && it.release && decide (it.read = some f))).length) ∧
    ((∀ it ∈ tr, it.read = some f → it.release = false) →
      f ∉ capture_loop tr) :=
  ⟨capture_loop_countP_le tr f, capture_loop_not_mem tr f⟩

/-- Witness for C8: a single live iteration reading frame 7 with the
release flag false emits nothing. -/
theorem claim8_witness :
    ((capture_loop [CapIter.mk false (some (7 : ℕ)) false]).countP
        (fun x => decide (x = 7)) ≤
      ([CapIter.mk false (some (7 : ℕ)) false].filter
        (fun it => !it.paused && it.release && decide (it.read = some 7))).length) ∧
    (7 : ℕ) ∉ capture_loop [CapIter.mk false (some (7 : ℕ)) false] :=
  ⟨(claim8_capture_release_gate [CapIter.mk false (some (7 : ℕ)) false] 7).1,
    (claim8_capture_release_gate [CapIter.mk false (some (7 : ℕ)) false] 7).2
      (by decide)⟩

/-- A concrete flow oracle for evaluations: identity grayscale, zero dense
flow, no detectable features. -/
def testOracle : FlowOracle ℚ :=
  { gray := fun fr => fr
    farneback := fun _ _ => (0, 0)
    goodFeatures := fun _ => none
    lkStep := fun _ _ p => ((0, 0), some p) }

/-- A concrete rational trig model for evaluations. -/
def testTrig : TrigModel ℚ :=
  { radians := fun x => x, cos := fun _ => 1, sin := fun _ => 0 }

/-- An orchestrator holding two ROIs, both satisfying the rectangle
invariant, as produced by two `add_roi` calls on a fresh instance. -/
def fmTwoROIs : FrameModel ℚ :=
  { FrameModel.init ℚ with roi_list :=
      [ROI.init_state (0, 0, 2, 2) 1 (-90) 0,
        ROI.init_state (0, 0, 1, 1) 1 (-90) 0] }

/-- First delivered frame (2×2). -/
def f1q : Frame ℚ := [[0, 0], [0, 0]]

/-- Second delivered frame (2×2), different from the first. -/
def f2q : Frame ℚ := [[1, 1], [1, 1]]

/-- Claim C7 (code bug, via the C1 algorithm-name bug).  The skip half of
the claim holds: a rectangle failing the invariant is never cropped or
processed.  But "every ROI satisfying the invariant is cropped and
processed ... and no exception is raised" fails on a reachable input:
an orchestrator built by two `add_roi` calls (both rectangles valid)
processes its first frame normally, and on the second frame the first
tracker's analysis raises `ValueError("Unknown algorithm: Farneback")`;
the exception propagates, and the second, equally valid tracker is left
untouched — not cropped, not processed — for that frame (its estimator
still holds the first frame's crop as "previous"). -/
theorem claim7_valid_roi_unprocessed_on_error :
    ((FrameModel.add_roi (FrameModel.init ℚ) (0, 0, 2, 2) 0).bind
        (fun m => FrameModel.add_roi m (0, 0, 1, 1) 0)) = .ok fmTwoROIs ∧
    validCoord (0, 0, 2, 2) = true ∧
    validCoord (0, 0, 1, 1) = true ∧
    (FrameModel.process_frame testOracle testTrig fmTwoROIs (some f1q) 0).2 =
      ProcResult.results 1
        (FrameModel.process_frame testOracle testTrig fmTwoROIs (some f1q) 0).1.roi_list
        false false ∧
    (FrameModel.process_frame testOracle testTrig
        (FrameModel.process_frame testOracle testTrig fmTwoROIs (some f1q) 0).1
        (some f2q) 1).2 =
      ProcResult.exn "Unknown algorithm: Farneback" ∧
    ((FrameModel.process_frame testOracle testTrig
        (FrameModel.process_frame testOracle testTrig fmTwoROIs (some f1q) 0).1
        (some f2q) 1).1.roi_list)[1]? =
      ((FrameModel.process_frame testOracle testTrig fmTwoROIs
        (some f1q) 0).1.roi_list)[1]? ∧
    (((FrameModel.process_frame testOracle testTrig fmTwoROIs
        (some f1q) 0).1.roi_list)[1]?).map
          (fun r => r.analysis.previous_frame) =
      some (some (cropFrame f1q (0, 0, 1, 1))) := by
  exact ⟨rfl, rfl, rfl, rfl, rfl, rfl, rfl⟩

/-- Bridge: a `process` call whose analysis returns the sentinel records
the pair and reports `(False, False)` without touching the aggregation
state. -/
theorem process_frame_sentinel {α : Type} [Field α] (O : FlowOracle α)
    (T : TrigModel α) (s : ROI α) (frame : Frame α) (now : ℕ)
    (a' : VideoAnalysis α)
    (h : VideoAnalysis.analyze O s.analysis frame = .ok (a', none)) :
    ROI.process_frame O T s frame now =
      .ok ({ s with analysis := a', delta_pixels := some none }, false, false) := by
  simp [ROI.process_frame, h]

/-- Bridge: a `process` call whose analysis returns a numeric pair is
exactly `ROI.processCore` applied to the sampled timestamp, the pair and
its calibrated displacement — the form over which the aggregation claims
are stated. -/
theorem process_frame_nonsentinel {α : Type} [Field α] (O : FlowOracle α)
    (T : TrigModel α) (s : ROI α) (frame : Frame α) (now : ℕ)
    (a' : VideoAnalysis α) (px : α × α)
    (h : VideoAnalysis.analyze O s.analysis frame = .ok (a', some px)) :
    ROI.process_frame O T s frame now =
      .ok (ROI.processCore { s with analysis := a' } now px
        (ROI.calculate_real_delta T { s with analysis := a' } px)) := by
  simp [ROI.process_frame, h]
